import Mathlib

/-!
Shallow embedding of the IoT temperature ingestion pipeline
(`dlt_ingest/iot_temperature_pipeline.py`) and proofs checking the
natural-language specification against it.

Modelling conventions:
* CSV cells are `Option String` (`none` = NaN/missing), tables are a column
  list plus rows of cells, mirroring a parsed pandas DataFrame.
* Machine floats are modelled by exact rationals; NaN propagation is made
  explicit with `Option ℚ`.
* numpy's globally seeded generator is modelled as a deterministic stream of
  rational draws determined by the pair (seed, draw position); the concrete
  mixing function stands in for MT19937, and every theorem proved is
  insensitive to the individual draw values.
* Filesystem I/O outcomes are oracles carried by the `PFile` structure:
  both reading the byte stream and the `stat()` call are fallible, and a
  raise that the source does not catch propagates as `Except.error`.
-/

/-- A CSV cell as pandas sees it: `none` models NaN/missing. -/
abbrev Cell := Option String

/-- One parsed row: cells aligned positionally with the table's columns. -/
abbrev Row := List Cell

/-- A parsed table (model of a pandas DataFrame produced by `read_csv`:
row labels are the implicit positions 0..n-1). -/
structure DataFrame where
  cols : List String
  rows : List Row
deriving DecidableEq, Repr

/-- Look a cell up by column name (pandas `row[col]`); absent column gives
`none`, which the pipeline never exercises on the classified branches. -/
def getCell (cols : List String) (r : Row) (c : String) : Cell :=
  r.getD (cols.findIdx (· == c)) none

/-- Python `str(x)` on a cell: NaN prints as "nan". -/
def cellStr (c : Cell) : String :=
  c.getD "nan"

/-- Character-wise lowering, model of Python `str.lower()`. -/
def lowerStr (s : String) : String :=
  ⟨s.data.map Char.toLower⟩

/-- Character-wise raising, model of Python `str.upper()`. -/
def upperStr (s : String) : String :=
  ⟨s.data.map Char.toUpper⟩

/-- Python `s[:n]`. -/
def takeStr (n : Nat) (s : String) : String :=
  ⟨s.data.take n⟩

/-- Python `s[-n:]`. -/
def takeRightStr (n : Nat) (s : String) : String :=
  ⟨s.data.drop (s.data.length - n)⟩

/-- Split on a single-character separator (Python `str.split(sep)`);
`splitOnCh` of the empty string is `[""]`, as in Python. -/
def splitOnChAux (sep : Char) : List Char → List Char → List (List Char)
  | [], acc => [acc.reverse]
  | c :: rest, acc =>
    if c == sep then acc.reverse :: splitOnChAux sep rest []
    else splitOnChAux sep rest (c :: acc)

def splitOnCh (sep : Char) (s : String) : List String :=
  (splitOnChAux sep s.data []).map (fun l => ⟨l⟩)

/-- Python `int(s)` restricted to digit strings, as `str.toNat?`. -/
def strToNat? (s : String) : Option Nat :=
  if s.data ≠ [] ∧ s.data.all Char.isDigit then
    some (s.data.foldl (fun a c => a * 10 + (c.toNat - 48)) 0)
  else none

/-- Replace every non-overlapping occurrence of `pat` (left to right),
fuelled by the input length; model of Python `str.replace` for a nonempty
pattern. -/
def replaceFuel (pat rep : List Char) : Nat → List Char → List Char
  | 0, l => l
  | _ + 1, [] => []
  | fuel + 1, c :: rest =>
    if !pat.isEmpty && pat.isPrefixOf (c :: rest) then
      rep ++ replaceFuel pat rep fuel (rest.drop (pat.length - 1))
    else c :: replaceFuel pat rep fuel rest

def pyReplace (s pat rep : String) : String :=
  ⟨replaceFuel pat.data rep.data s.data.length s.data⟩

/-- Does `pat` occur as a contiguous block of `l`? -/
def subListAt (pat : List Char) : List Char → Bool
  | [] => pat.isEmpty
  | c :: rest => pat.isPrefixOf (c :: rest) || subListAt pat rest

/-- Model of `Series.str.contains(pat, case=False)` for a literal pattern:
case-insensitive substring test. -/
def containsCI (s pat : String) : Bool :=
  subListAt (lowerStr pat).data (lowerStr s).data

/-- Source `_transform_kaggle_format`, device-id column: Python
`"IOT_TEMP_" + str(x).split('_')[-1][:8].upper()` for non-null ids. -/
def deviceIdOf (c : Cell) : String :=
  match c with
  | some s => "IOT_TEMP_" ++ upperStr (takeStr 8 ((splitOnCh '_' s).getLastD ""))
  | none => "IOT_TEMP_UNKNOWN"

/-- The spec's wording for the device id ("last 8 characters (uppercased) of
the id's suffix after splitting on \"_\""), stated for comparison with the
source's `deviceIdOf`. -/
def deviceIdSpecLast8 (c : Cell) : String :=
  match c with
  | some s => "IOT_TEMP_" ++ upperStr (takeRightStr 8 ((splitOnCh '_' s).getLastD ""))
  | none => "IOT_TEMP_UNKNOWN"

/-- Room processing inside the location column: Python
`str(room).replace('Room ', '').replace('Admin', 'Office')`. -/
def processRoom (room : String) : String :=
  pyReplace (pyReplace room "Room " "") "Admin" "Office"

/-- Source `_transform_kaggle_format`, location column:
`f"{processed room}_{str(out_in).lower()}"`. -/
def mkLocation (room outin : String) : String :=
  processRoom room ++ "_" ++ lowerStr outin

/-- Indoor/outdoor humidity base: `np.where(location contains 'in' (case
insensitive), 45, 65)`. -/
def baseHumidityOf (loc : String) : ℚ :=
  if containsCI loc "in" then 45 else 65

/-- Indoor/outdoor signal base: `np.where(location contains 'in' (case
insensitive), -55, -45)`. -/
def baseSignalOf (loc : String) : ℚ :=
  if containsCI loc "in" then -55 else -45

/-- A parsed timestamp (`pd.to_datetime` result); only parse success and the
field values matter to the claims. -/
structure TS where
  year : Nat
  month : Nat
  day : Nat
  hour : Nat
  minute : Nat
deriving DecidableEq, Repr

/-- Gregorian leap-year test. -/
def isLeap (y : Nat) : Bool :=
  (y % 4 == 0 && y % 100 != 0) || (y % 400 == 0)

/-- Days in a month, for timestamp validation. -/
def daysInMonth (y m : Nat) : Nat :=
  if m == 2 then (if isLeap y then 29 else 28)
  else if m == 4 || m == 6 || m == 9 || m == 11 then 30 else 31

/-- Model of `pd.to_datetime(s, format='%d-%m-%Y %H:%M', errors='coerce')`
on one string: strict day-month-year hour:minute shape with range checks;
any mismatch yields `none` (NaT). -/
def parseNotedStr (s : String) : Option TS :=
  match splitOnCh ' ' s with
  | [ds, ts] =>
    match splitOnCh '-' ds, splitOnCh ':' ts with
    | [d, m, y], [hh, mm] => do
      let dv ← strToNat? d
      let mv ← strToNat? m
      let yv ← strToNat? y
      let hv ← strToNat? hh
      let miv ← strToNat? mm
      guard (1 ≤ d.length ∧ d.length ≤ 2)
      guard (1 ≤ m.length ∧ m.length ≤ 2)
      guard (1 ≤ y.length ∧ y.length ≤ 4)
      guard (1 ≤ hh.length ∧ hh.length ≤ 2)
      guard (1 ≤ mm.length ∧ mm.length ≤ 2)
      guard (1 ≤ mv ∧ mv ≤ 12)
      guard (1 ≤ dv ∧ dv ≤ daysInMonth yv mv)
      guard (hv ≤ 23)
      guard (miv ≤ 59)
      pure ⟨yv, mv, dv, hv, miv⟩
    | _, _ => none
  | _ => none

/-- Timestamp column entry: a NaN `noted_date` coerces to NaT. -/
def parseNotedCell (c : Cell) : Option TS :=
  c.bind parseNotedStr

/-- Float values with explicit NaN (`none`). -/
abbrev Fl := Option ℚ

/-- NaN-propagating binary arithmetic. -/
def flMap2 (f : ℚ → ℚ → ℚ) : Fl → Fl → Fl
  | some a, some b => some (f a b)
  | _, _ => none

def flAdd : Fl → Fl → Fl := flMap2 (· + ·)
def flSub : Fl → Fl → Fl := flMap2 (· - ·)
def flMul : Fl → Fl → Fl := flMap2 (· * ·)

/-- Model of `np.clip(x, lo, hi)`. -/
def clipQ (x lo hi : ℚ) : ℚ :=
  min (max x lo) hi

/-- Rounding `.round(1)` modelled with integer rounding of 10x (exact-tie behaviour
of numpy's half-even rounding is immaterial to every claim proved here). -/
def round1 (x : ℚ) : ℚ :=
  (round (x * 10) : ℤ) / 10

def flClip (x : Fl) (lo hi : ℚ) : Fl := x.map (fun v => clipQ v lo hi)
def flRound1 (x : Fl) : Fl := x.map round1

/-- Parse a nonnegative decimal literal to an exact rational. -/
def parseURat? (s : String) : Option ℚ :=
  match splitOnCh '.' s with
  | [a] => (strToNat? a).map (fun n => (n : ℚ))
  | [a, b] => do
      let n ← strToNat? a
      let m ← strToNat? b
      pure ((n : ℚ) + (m : ℚ) / ((10 : ℚ) ^ b.length))
  | _ => none

/-- Model of Python `float(str)` used by `df['temp'].astype(float)`:
decimal literals with optional sign; anything else raises (→ `none`). -/
def parseRat? (s : String) : Option ℚ :=
  match s.data with
  | '-' :: rest => (parseURat? ⟨rest⟩).map Neg.neg
  | _ => parseURat? s

/-- Cast `astype(float)` on one cell: NaN flows through as float NaN, an
unparseable string raises (outer `none` aborts the transform). -/
def astypeFloatCell (c : Cell) : Option Fl :=
  match c with
  | none => some (none : Fl)
  | some s => (parseRat? s).map some

/-- State of numpy's global generator: the seed set by `np.random.seed` plus
the number of draws consumed so far. -/
structure Rng where
  seed : Nat
  pos : Nat
deriving DecidableEq, Repr

/-- Deterministic draw stream in [0,1): stand-in for the seeded MT19937
stream; determined entirely by (seed, position). -/
def rngVal (seed pos : Nat) : ℚ :=
  ((((seed + 1) * 2654435761 + pos * 40503 + 12345) % 1000003 : ℕ) : ℚ) / 1000003

/-- Consume one draw. -/
def Rng.next (g : Rng) : ℚ × Rng :=
  (rngVal g.seed g.pos, ⟨g.seed, g.pos + 1⟩)

/-- Model of `np.random.seed(n)`: reset the global stream. -/
def npSeed (n : Nat) : Rng :=
  ⟨n, 0⟩

/-- Draw `n` values sequentially, post-processing each raw uniform draw
with `f` (models one vectorized `np.random.*(..., n)` call). -/
def drawsN (f : ℚ → α) : Nat → Rng → List α × Rng
  | 0, g => ([], g)
  | n + 1, g =>
    let p := Rng.next g
    let rest := drawsN f n p.2
    (f p.1 :: rest.1, rest.2)

/-- Model of `np.random.normal(mu, sigma, n)` (affine stand-in for the Gaussian
transform; only count and position of draws matter to the claims). -/
def normals (mu sigma : ℚ) (n : Nat) (g : Rng) : List ℚ × Rng :=
  drawsN (fun u => mu + sigma * u) n g

/-- Model of `np.random.uniform(lo, hi, n)`. -/
def uniforms (lo hi : ℚ) (n : Nat) (g : Rng) : List ℚ × Rng :=
  drawsN (fun u => lo + (hi - lo) * u) n g

/-- Select a catalog entry from one uniform draw. -/
def pick (xs : List String) (u : ℚ) : String :=
  xs.getD (Int.toNat ⌊u * (xs.length : ℚ)⌋ % xs.length) ""

/-- Model of `np.random.choice(xs, n)`. -/
def choices (xs : List String) (n : Nat) (g : Rng) : List String × Rng :=
  drawsN (pick xs) n g

/-- The fixed device-type catalog. -/
def deviceTypes : List String :=
  ["DHT22", "DS18B20", "SHT30", "BME280", "TMP36"]

/-- The fixed firmware catalog. -/
def firmwareVersions : List String :=
  ["v1.2.3", "v1.2.4", "v1.3.0", "v1.3.1", "v2.0.0"]

/-- One transformed (canonical-schema) row produced by
`_transform_kaggle_format`. -/
structure KRow where
  device_id : String
  timestamp : Option TS
  temperature : Fl
  location : String
  humidity : Fl
  battery_level : ℚ
  signal_strength : ℚ
  device_type : String
  firmware_version : String
deriving DecidableEq, Repr

/-- Column `transformed_df['device_id']`. -/
def kaggleDevCol (df : DataFrame) : List String :=
  df.rows.map (fun r => deviceIdOf (getCell df.cols r "id"))

/-- Column `transformed_df['timestamp']` (`errors='coerce'`). -/
def kaggleTsCol (df : DataFrame) : List (Option TS) :=
  df.rows.map (fun r => parseNotedCell (getCell df.cols r "noted_date"))

/-- Column `df['temp'].astype(float)`: `none` models the `astype` raise on an
unparseable string, which the caller's `except` turns into a skipped file. -/
def kaggleTempCol (df : DataFrame) : Option (List Fl) :=
  df.rows.mapM (fun r => astypeFloatCell (getCell df.cols r "temp"))

/-- Column `transformed_df['location']`. -/
def kaggleLocCol (df : DataFrame) : List String :=
  df.rows.map (fun r =>
    mkLocation (cellStr (getCell df.cols r "room_id/id")) (cellStr (getCell df.cols r "out/in")))

/-- Assemble the full transformed table (before the `dropna` on timestamps)
from the pure columns and the six synthetic draw vectors; row labels are the
positions `0..n-1` the input table carries out of `read_csv`. -/
def kaggleAssemble (df : DataFrame) (tempCol : List Fl)
    (humNoise baseBat batNoise sigNoise : List ℚ) (dtCol fwCol : List String) :
    List (Nat × KRow) :=
  let n := df.rows.length
  let devCol := kaggleDevCol df
  let tsCol := kaggleTsCol df
  let locCol := kaggleLocCol df
  (List.range n).map (fun j =>
    (j,
     { device_id := devCol.getD j ""
       timestamp := tsCol.getD j none
       temperature := tempCol.getD j none
       location := locCol.getD j ""
       humidity := flRound1 (flClip
         (flAdd (flAdd (some (baseHumidityOf (locCol.getD j "")))
           (flMul (flSub (tempCol.getD j none) (some 25)) (some (-(6/5 : ℚ)))))
           (some (humNoise.getD j 0))) 20 95)
       battery_level := round1 (clipQ
         (baseBat.getD j 0 - (j : ℚ) * (1/1000) + batNoise.getD j 0) 10 100)
       signal_strength := round1 (clipQ
         (baseSignalOf (locCol.getD j "") + sigNoise.getD j 0) (-90) (-20))
       device_type := dtCol.getD j ""
       firmware_version := fwCol.getD j "" }))

/-- Source `_transform_kaggle_format`: takes the incoming global generator state
(which the source immediately overwrites with `np.random.seed(42)`), returns
the surviving indexed rows, the dropped-row count reported by the source's
print, and the outgoing generator state.  `none` models the `astype` raise. -/
def transformKaggleSt (_gIn : Rng) (df : DataFrame) :
    Option (List (Nat × KRow) × Nat × Rng) :=
  match kaggleTempCol df with
  | none => none
  | some tempCol =>
    let g0 := npSeed 42
    let n := df.rows.length
    let r1 := normals 0 8 n g0
    let r2 := uniforms 70 100 n r1.2
    let r3 := normals 0 5 n r2.2
    let r4 := normals 0 10 n r3.2
    let r5 := choices deviceTypes n r4.2
    let r6 := choices firmwareVersions n r5.2
    let allRows := kaggleAssemble df tempCol r1.1 r2.1 r3.1 r4.1 r5.1 r6.1
    let kept := allRows.filter (fun p => (p.2.timestamp).isSome)
    some (kept, allRows.length - kept.length, r6.2)

/-- The draw of the fixed seeded stream at absolute position `p`. -/
def drawAt (p : Nat) : ℚ := rngVal 42 p

/-- Spec-order humidity noise: draw positions `[0, n)` of the seeded stream. -/
def kaggleSpecHumNoise (n : Nat) : List ℚ :=
  (List.range n).map (fun j => 0 + 8 * drawAt j)

/-- Spec-order battery base: draw positions `[n, 2n)`. -/
def kaggleSpecBaseBat (n : Nat) : List ℚ :=
  (List.range n).map (fun j => 70 + (100 - 70) * drawAt (n + j))

/-- Spec-order battery noise: draw positions `[2n, 3n)`. -/
def kaggleSpecBatNoise (n : Nat) : List ℚ :=
  (List.range n).map (fun j => 0 + 5 * drawAt (2 * n + j))

/-- Spec-order signal noise: draw positions `[3n, 4n)`. -/
def kaggleSpecSigNoise (n : Nat) : List ℚ :=
  (List.range n).map (fun j => 0 + 10 * drawAt (3 * n + j))

/-- Spec-order device-type draws: positions `[4n, 5n)`. -/
def kaggleSpecDevType (n : Nat) : List String :=
  (List.range n).map (fun j => pick deviceTypes (drawAt (4 * n + j)))

/-- Spec-order firmware draws: positions `[5n, 6n)`. -/
def kaggleSpecFirmware (n : Nat) : List String :=
  (List.range n).map (fun j => pick firmwareVersions (drawAt (5 * n + j)))

/-- The full pre-drop transformed table written in the spec's order language:
each synthetic column reads the seeded stream at fixed offsets
(humidity `[0,n)`, battery `[n,3n)`, signal `[3n,4n)`, categorical
`[4n,6n)`). -/
def kaggleAllRowsSpecOrder (df : DataFrame) : Option (List (Nat × KRow)) :=
  (kaggleTempCol df).map (fun tempCol =>
    let n := df.rows.length
    kaggleAssemble df tempCol (kaggleSpecHumNoise n) (kaggleSpecBaseBat n)
      (kaggleSpecBatNoise n) (kaggleSpecSigNoise n)
      (kaggleSpecDevType n) (kaggleSpecFirmware n))

/-- The spec's-order description of the whole transformation, for comparison
with the stateful `transformKaggleSt`. -/
def transformKaggleSpecOrder (df : DataFrame) :
    Option (List (Nat × KRow) × Nat × Rng) :=
  (kaggleAllRowsSpecOrder df).map (fun allRows =>
    let kept := allRows.filter (fun p => (p.2.timestamp).isSome)
    (kept, allRows.length - kept.length, ⟨42, 6 * df.rows.length⟩))

/-- Decimal rendering of a natural number, model of Python `str(i)` /
`f"{i}"`. -/
def digitCharOf (d : Nat) : Char := Char.ofNat (48 + d)

/-- Big-endian decimal digits of a positive number, fuelled by the number
itself (the fuel never runs out since a number needs at most `n` digits). -/
def decReprAux : Nat → Nat → List Char
  | 0, _ => []
  | _ + 1, 0 => []
  | fuel + 1, n => decReprAux fuel (n / 10) ++ [digitCharOf (n % 10)]

def decRepr (n : Nat) : String :=
  if n = 0 then "0" else ⟨decReprAux n n⟩

/-- Source `_transform_generic_format` column renaming: exactly the two fixed
renames `room_id/id → room_id_id` and `out/in → out_in`. -/
def renameCol (c : String) : String :=
  if c == "room_id/id" then "room_id_id"
  else if c == "out/in" then "out_in"
  else c

/-- Source `_transform_generic_format`: copy the table and rename the two columns;
rows are untouched. -/
def transformGenericFormat (df : DataFrame) : DataFrame :=
  { cols := df.cols.map renameCol, rows := df.rows }

/-- The standard-schema marker columns. -/
def canonicalCols : List String := ["device_id", "timestamp", "temperature"]

/-- The Kaggle (LegacyVendor) marker columns. -/
def kaggleCols : List String := ["id", "room_id/id", "noted_date", "temp", "out/in"]

/-- Test `set(a).issubset(set(b))` on column names. -/
def subcols (a b : List String) : Bool := a.all (fun c => b.elem c)

/-- The rows handed to enrichment, tagged by transformation path; each row
carries the pandas row label `iterrows` yields. -/
inductive TRows where
  | cells (cols : List String) (rows : List (Nat × Row))
  | kag (rows : List (Nat × KRow))
deriving DecidableEq, Repr

/-- Source `_transform_to_standard_format`: canonical passthrough is checked first,
then the Kaggle shape, then the generic fallback.  Passthrough and generic
rows keep their positional labels `0..n-1`. -/
def transformToStandardFormat (g : Rng) (df : DataFrame) : Option (TRows × Rng) :=
  if subcols canonicalCols df.cols then some (.cells df.cols df.rows.enum, g)
  else if subcols kaggleCols df.cols then
    (transformKaggleSt g df).map (fun t => (.kag t.1, t.2.2))
  else some (.cells (transformGenericFormat df).cols (transformGenericFormat df).rows.enum, g)

/-- The result of one `stat()` call on a file: byte size and mtime. -/
structure StatInfo where
  size : Nat
  mtime : Nat
deriving DecidableEq, Repr

/-- Except results compare decidably when their components do. -/
instance {e a : Type} [DecidableEq e] [DecidableEq a] : DecidableEq (Except e a) :=
  fun x y =>
    match x, y with
    | .ok v, .ok w => decidable_of_iff (v = w) (by simp)
    | .error v, .error w => decidable_of_iff (v = w) (by simp)
    | .ok _, .error _ => isFalse (fun hc => Except.noConfusion hc)
    | .error _, .ok _ => isFalse (fun hc => Except.noConfusion hc)

/-- A candidate file of the landing zone together with the outcome of the
I/O the pipeline performs on it: `readBytes` is what streaming the file's
bytes yields (`Except.error` models an `open`/`read` raise), `stat` is the
outcome of `file_path.stat()` — itself a fallible call, e.g. when the file
vanished after the glob — and `parsed` is the result of
`_load_csv_with_fallback` (`none` = every encoding failed). -/
structure PFile where
  name : String
  path : String
  stat : Except Unit StatInfo
  readBytes : Except Unit (List Nat)
  parsed : Option DataFrame

/-- Source `_calculate_file_hash`: digest of the streamed bytes (`sha`
abstracts the SHA-256 hex digest).  When reading raises, the `except`
branch builds the degraded `error_name_size` fallback — but that branch
itself calls `file_path.stat()`, so when the stat also fails the exception
propagates out of the hasher (`Except.error`). -/
def calculateFileHash (sha : List Nat → String) (f : PFile) : Except Unit String :=
  match f.readBytes with
  | .ok bs => .ok (sha bs)
  | .error _ =>
    match f.stat with
    | .ok st => .ok ("error_" ++ f.name ++ "_" ++ decRepr st.size)
    | .error e => .error e

/-- Source `_get_processed_files`: the registry lookup is a stub that
always returns the empty set. -/
def getProcessedFiles : List String := []

/-- The transformed row carried inside an emitted record. -/
inductive Payload where
  | pcells (r : Row)
  | pk (r : KRow)
deriving DecidableEq, Repr

/-- One record emitted by `load_temperature_files`:
`row.to_dict()` plus the uniqueness id, the 1-based row number and the
file-level metadata. -/
structure Record where
  payload : Payload
  file_record_id : String
  row_number : Nat
  file_name : String
  file_path : String
  file_size_bytes : Nat
  file_hash : String
  ingestion_timestamp : Nat
  total_records : Nat
deriving DecidableEq, Repr

/-- The per-row enrichment loop (`for idx, row in df.iterrows()`); `sz` is
the byte size the metadata block read off `csv_file.stat()`. -/
def enrichRows (h : String) (f : PFile) (sz : Nat) (now : Nat) (tr : TRows) :
    List Record :=
  match tr with
  | .cells _ rows => rows.map (fun p =>
      { payload := .pcells p.2
        file_record_id := h ++ "_" ++ decRepr p.1
        row_number := p.1 + 1
        file_name := f.name
        file_path := f.path
        file_size_bytes := sz
        file_hash := h
        ingestion_timestamp := now
        total_records := rows.length })
  | .kag rows => rows.map (fun p =>
      { payload := .pk p.2
        file_record_id := h ++ "_" ++ decRepr p.1
        row_number := p.1 + 1
        file_name := f.name
        file_path := f.path
        file_size_bytes := sz
        file_hash := h
        ingestion_timestamp := now
        total_records := rows.length })

/-- The body of `load_temperature_files` for one scanned file.  The hash is
computed OUTSIDE the `try`, so a hasher raise aborts the whole scan
(`Except.error`).  Otherwise: skip on registry hit (checked before
decoding), skip unreadable or empty parses, skip on a transform raise or on
the metadata `stat()` raising (both inside the `try`/`except`), else emit
the enriched rows.  The global generator state is threaded through. -/
def processFile (sha : List Nat → String) (now : Nat) (processed : List String)
    (g : Rng) (f : PFile) : Except Unit (List Record × Rng) :=
  match calculateFileHash sha f with
  | .error e => .error e
  | .ok h =>
    if processed.elem h then .ok ([], g)
    else
      match f.parsed with
      | none => .ok ([], g)
      | some df =>
        if df.rows.isEmpty then .ok ([], g)
        else
          match transformToStandardFormat g df with
          | none => .ok ([], g)
          | some (tr, g') =>
            match f.stat with
            | .error _ => .ok ([], g')
            | .ok st => .ok (enrichRows h f st.size now tr, g')

/-- Source `load_temperature_files`, the loop over the scanned files:
emitted records concatenate in order, and a hasher raise (outside the
per-file `try`) aborts the remaining scan. -/
def loadFilesAux (sha : List Nat → String) (now : Nat) (processed : List String) :
    List PFile → List Record × Rng → Except Unit (List Record × Rng)
  | [], acc => .ok acc
  | f :: fs, acc =>
    match processFile sha now processed acc.2 f with
    | .error e => .error e
    | .ok s => loadFilesAux sha now processed fs (acc.1 ++ s.1, s.2)

/-- The whole `load_temperature_files` resource: `processed` is the
registry snapshot taken once at the start (`_get_processed_files()`),
`now` the capture time. -/
def loadTemperatureFiles (sha : List Nat → String) (now : Nat)
    (files : List PFile) (processed : List String) : Except Unit (List Record) :=
  (loadFilesAux sha now processed files (([] : List Record), npSeed 0)).map
    (fun p => p.1)

/-- One `file_processing_log` entry. -/
structure LogEntry where
  file_name : String
  file_path : String
  file_size_bytes : Nat
  file_hash : String
  file_modified_time : Nat
  processing_timestamp : Nat
  status : String
deriving DecidableEq, Repr

/-- Source `log_file_processing`: one entry per scanned file, with the
status hard-coded to `'processed'`.  Each entry reads `csv_file.stat()`
and the hash with no `try` around them, so either raising aborts the log
resource. -/
def logFileProcessing (sha : List Nat → String) (now : Nat) :
    List PFile → Except Unit (List LogEntry)
  | [] => .ok []
  | f :: fs =>
    match f.stat with
    | .error e => .error e
    | .ok st =>
      match calculateFileHash sha f with
      | .error e => .error e
      | .ok h =>
        match logFileProcessing sha now fs with
        | .error e => .error e
        | .ok rest =>
          .ok ({ file_name := f.name
                 file_path := f.path
                 file_size_bytes := st.size
                 file_hash := h
                 file_modified_time := st.mtime
                 processing_timestamp := now
                 status := "processed" } :: rest)

/-- The row labels (`iterrows` indices) carried by a transformed table. -/
def TRows.idxList : TRows → List Nat
  | .cells _ rows => rows.map Prod.fst
  | .kag rows => rows.map Prod.fst

/-! ### Concrete inputs used by witnesses and counterexamples -/

/-- A stand-in digest function for concrete runs (the claims settled on
concrete inputs never depend on the digest's internals). -/
def shaW : List Nat → String :=
  fun bs => "H" ++ decRepr (bs.foldl (fun a b => a * 31 + b) 7)

/-- The spec's scenario row: `id=__7,Room Admin,28-07-2018 12:00,29.5,In`. -/
def dfScenario : DataFrame :=
  ⟨kaggleCols,
   [[some "__7", some "Room Admin", some "28-07-2018 12:00", some "29.5", some "In"]]⟩

/-- A three-row Kaggle table whose middle row has an unparseable
`noted_date`. -/
def dfDropW : DataFrame :=
  ⟨kaggleCols,
   [[some "__1", some "Room Admin", some "28-07-2018 12:00", some "29.5", some "In"],
    [some "__2", some "Room Admin", some "not a date", some "30", some "Out"],
    [some "__3", some "Room Admin", some "29-07-2018 07:28", some "41", some "Out"]]⟩

/-- A one-row table already in the canonical schema. -/
def dfCanonW : DataFrame :=
  ⟨["device_id", "timestamp", "temperature"],
   [[some "DEV1", some "2018-07-28 12:00", some "29.5"]]⟩

/-- A readable landing file holding the canonical one-row table. -/
def fileW : PFile :=
  ⟨"a.csv", "./landing_zone/a.csv", .ok ⟨10, 100⟩, .ok [1, 2, 3], some dfCanonW⟩

/-- A second file with different name but identical bytes and identical
parsed content. -/
def fileW2 : PFile :=
  ⟨"b.csv", "./landing_zone/b.csv", .ok ⟨10, 100⟩, .ok [1, 2, 3], some dfCanonW⟩

/-- An unreadable file: every decode attempt failed. -/
def fileUnreadable : PFile :=
  ⟨"u.csv", "./landing_zone/u.csv", .ok ⟨7, 100⟩, .ok [9], none⟩

/-- A file whose byte stream cannot be read, but whose metadata is still
available. -/
def fileIOFail : PFile :=
  ⟨"broken.csv", "./landing_zone/broken.csv", .ok ⟨55, 100⟩, .error (), none⟩

/-- A file that vanished after the glob: both reading its bytes and the
`stat()` call fail. -/
def fileStatFail : PFile :=
  ⟨"gone.csv", "./landing_zone/gone.csv", .error (), .error (), none⟩

/-! ## Theorems -/

/-- Sequential draws are the stream values at consecutive positions, and
they advance the generator by exactly `n`. -/
theorem drawsN_spec (f : ℚ → α) : ∀ (n : Nat) (g : Rng),
    drawsN f n g =
      ((List.range n).map (fun j => f (rngVal g.seed (g.pos + j))),
       ⟨g.seed, g.pos + n⟩) := by
  intro n
  induction n with
  | zero => intro g; simp [drawsN]
  | succ n ih =>
    intro g
    simp only [drawsN, Rng.next, ih]
    refine Prod.ext ?_ (by simp; omega)
    simp only [List.range_succ_eq_map, List.map_cons, List.map_map]
    refine congrArg₂ _ (by simp) ?_
    refine List.map_congr_left (fun j _ => ?_)
    simp [Function.comp]
    refine congrArg f (congrArg _ ?_)
    omega

/-- The humidity-noise call consumes positions `[0, n)` of the seeded
stream. -/
theorem normals_hum_spec (n : Nat) :
    normals 0 8 n (npSeed 42) = (kaggleSpecHumNoise n, ⟨42, n⟩) := by
  simp [normals, drawsN_spec, npSeed, kaggleSpecHumNoise, drawAt]

/-- The battery-base call consumes positions `[n, 2n)`. -/
theorem uniforms_bat_spec (n : Nat) :
    uniforms 70 100 n ⟨42, n⟩ = (kaggleSpecBaseBat n, ⟨42, 2 * n⟩) := by
  simp only [uniforms, drawsN_spec, kaggleSpecBaseBat, drawAt]
  refine Prod.ext (by simp) (by simp; omega)

/-- The battery-noise call consumes positions `[2n, 3n)`. -/
theorem normals_batnoise_spec (n : Nat) :
    normals 0 5 n ⟨42, 2 * n⟩ = (kaggleSpecBatNoise n, ⟨42, 3 * n⟩) := by
  simp only [normals, drawsN_spec, kaggleSpecBatNoise, drawAt]
  refine Prod.ext (by simp) (by simp; omega)

/-- The signal-noise call consumes positions `[3n, 4n)`. -/
theorem normals_signoise_spec (n : Nat) :
    normals 0 10 n ⟨42, 3 * n⟩ = (kaggleSpecSigNoise n, ⟨42, 4 * n⟩) := by
  simp only [normals, drawsN_spec, kaggleSpecSigNoise, drawAt]
  refine Prod.ext (by simp) (by simp; omega)

/-- The device-type call consumes positions `[4n, 5n)`. -/
theorem choices_dev_spec (n : Nat) :
    choices deviceTypes n ⟨42, 4 * n⟩ = (kaggleSpecDevType n, ⟨42, 5 * n⟩) := by
  simp only [choices, drawsN_spec, kaggleSpecDevType, drawAt]
  refine Prod.ext (by simp) (by simp; omega)

/-- The firmware call consumes positions `[5n, 6n)`. -/
theorem choices_fw_spec (n : Nat) :
    choices firmwareVersions n ⟨42, 5 * n⟩ = (kaggleSpecFirmware n, ⟨42, 6 * n⟩) := by
  simp only [choices, drawsN_spec, kaggleSpecFirmware, drawAt]
  refine Prod.ext (by simp) (by simp; omega)

/-- The stateful transformation coincides with its spec-order description,
for any incoming global generator state. -/
theorem transformKaggleSt_eq_specOrder (g : Rng) (df : DataFrame) :
    transformKaggleSt g df = transformKaggleSpecOrder df := by
  cases h : kaggleTempCol df with
  | none => simp [transformKaggleSt, transformKaggleSpecOrder, kaggleAllRowsSpecOrder, h]
  | some tempCol =>
    simp only [transformKaggleSt, transformKaggleSpecOrder, kaggleAllRowsSpecOrder, h,
      Option.map_some]
    rw [normals_hum_spec, uniforms_bat_spec, normals_batnoise_spec,
      normals_signoise_spec, choices_dev_spec, choices_fw_spec]
    simp

/-- C2: for every fixed LegacyVendor input table, two runs of the
transformation produce identical synthetic columns (indeed identical whole
results): the generator is re-seeded with the fixed constant at the start of
each transformation, so the result is independent of the incoming global
generator state, and the draws occur in the fixed order humidity noise, then
battery base and noise, then signal noise, then the two categorical draws
(the spec-order description with its fixed stream offsets). -/
theorem claim_C2_transformer_determinism (g₁ g₂ : Rng) (df : DataFrame) :
    transformKaggleSt g₁ df = transformKaggleSt g₂ df ∧
    transformKaggleSt g₁ df = transformKaggleSpecOrder df :=
  ⟨by rw [transformKaggleSt_eq_specOrder, transformKaggleSt_eq_specOrder],
   transformKaggleSt_eq_specOrder g₁ df⟩

/-- Counting a predicate through positional `getD` lookups over `range`
recovers the plain count. -/
theorem countP_range_getD (p : α → Bool) (d : α) :
    ∀ l : List α,
      (List.range l.length).countP (fun j => p (l.getD j d)) = l.countP p := by
  intro l
  induction l with
  | nil => simp
  | cons a t ih =>
    rw [List.length_cons, List.range_succ_eq_map, List.countP_cons,
      List.countP_map]
    simp only [Function.comp_def, List.getD_cons_succ, List.getD_cons_zero]
    rw [ih, List.countP_cons]

/-- The pre-drop transformed table has exactly one row per input row. -/
theorem kaggleAssemble_length (df : DataFrame) (tempCol : List Fl)
    (hn b bn sn : List ℚ) (dt fw : List String) :
    (kaggleAssemble df tempCol hn b bn sn dt fw).length = df.rows.length := by
  simp [kaggleAssemble]

/-- Counting NaT timestamps over the assembled table counts the input rows
with an unparseable `noted_date`. -/
theorem kaggleAssemble_countP_badTs (df : DataFrame) (tempCol : List Fl)
    (hn b bn sn : List ℚ) (dt fw : List String) :
    (kaggleAssemble df tempCol hn b bn sn dt fw).countP
        (fun p => p.2.timestamp.isNone) =
      df.rows.countP
        (fun r => (parseNotedCell (getCell df.cols r "noted_date")).isNone) := by
  simp only [kaggleAssemble, List.countP_map, Function.comp_def]
  have hlen : df.rows.length = (kaggleTsCol df).length := by
    simp [kaggleTsCol]
  rw [hlen, countP_range_getD (fun t : Option TS => t.isNone) none (kaggleTsCol df),
    kaggleTsCol, List.countP_map]
  simp [Function.comp_def]

/-- On `Nat × KRow` pairs, the negation of "timestamp present" is
"timestamp NaT". -/
theorem notSome_eq_isNone_kRow (A : List (Nat × KRow)) :
    A.countP (fun q => ¬q.2.timestamp.isSome) =
      A.countP (fun q => q.2.timestamp.isNone) := by
  refine List.countP_congr (fun x _ => ?_)
  cases x.2.timestamp <;> simp

/-- C5: for every LegacyVendor table whose transformation succeeds, with
`k` rows whose `noted_date` fails to parse under the exact
day-month-year hour:minute format, the output has exactly
`original_row_count - k` rows, the reported dropped count equals `k`, and
the surviving rows are exactly the timestamp-filtered rows of the fully
computed pre-drop table (all fields, synthetic columns included, are
computed before the drop). -/
theorem claim_C5_drop_accounting (g : Rng) (df : DataFrame)
    (t : List (Nat × KRow) × Nat × Rng)
    (h : transformKaggleSt g df = some t) :
    t.1.length = df.rows.length - t.2.1 ∧
    t.1.length + t.2.1 = df.rows.length ∧
    t.2.1 = df.rows.countP
      (fun r => (parseNotedCell (getCell df.cols r "noted_date")).isNone) ∧
    (kaggleAllRowsSpecOrder df).map
      (fun all => all.filter (fun p => p.2.timestamp.isSome)) = some t.1 := by
  rw [transformKaggleSt_eq_specOrder] at h
  cases hT : kaggleTempCol df with
  | none =>
    rw [transformKaggleSpecOrder, kaggleAllRowsSpecOrder, hT] at h
    simp at h
  | some tempCol =>
    rw [transformKaggleSpecOrder, kaggleAllRowsSpecOrder, hT] at h
    simp only [Option.map_some'] at h
    obtain rfl := Option.some.inj h
    dsimp only
    have lenA := kaggleAssemble_length df tempCol
      (kaggleSpecHumNoise df.rows.length) (kaggleSpecBaseBat df.rows.length)
      (kaggleSpecBatNoise df.rows.length) (kaggleSpecSigNoise df.rows.length)
      (kaggleSpecDevType df.rows.length) (kaggleSpecFirmware df.rows.length)
    have badA := kaggleAssemble_countP_badTs df tempCol
      (kaggleSpecHumNoise df.rows.length) (kaggleSpecBaseBat df.rows.length)
      (kaggleSpecBatNoise df.rows.length) (kaggleSpecSigNoise df.rows.length)
      (kaggleSpecDevType df.rows.length) (kaggleSpecFirmware df.rows.length)
    set A := kaggleAssemble df tempCol
      (kaggleSpecHumNoise df.rows.length) (kaggleSpecBaseBat df.rows.length)
      (kaggleSpecBatNoise df.rows.length) (kaggleSpecSigNoise df.rows.length)
      (kaggleSpecDevType df.rows.length) (kaggleSpecFirmware df.rows.length) with hA
    have hkept : (A.filter (fun q => q.2.timestamp.isSome)).length
        = A.countP (fun q => q.2.timestamp.isSome) :=
      (List.countP_eq_length_filter _ _).symm
    have hsplit := List.length_eq_countP_add_countP
      (fun q : Nat × KRow => q.2.timestamp.isSome) A
    rw [notSome_eq_isNone_kRow] at hsplit
    refine ⟨by omega, by omega, by omega, ?_⟩
    rw [kaggleAllRowsSpecOrder, hT]
    simp only [Option.map_some']

/-- Witness for C5: on the concrete three-row table with one bad
`noted_date`, the transform keeps 2 rows and reports 1 dropped. -/
theorem claim_C5_drop_accounting_witness :
    (transformKaggleSt (npSeed 0) dfDropW).map
      (fun t => (t.1.length + t.2.1, t.2.1)) = some (3, 1) := by
  cases h : transformKaggleSt (npSeed 0) dfDropW with
  | none => exact absurd h (by decide)
  | some t =>
    obtain ⟨h1, h2, h3, h4⟩ := claim_C5_drop_accounting (npSeed 0) dfDropW t h
    have e1 : dfDropW.rows.length = 3 := rfl
    have e2 : dfDropW.rows.countP
        (fun r => (parseNotedCell (getCell dfDropW.cols r "noted_date")).isNone) = 1 := by
      decide
    rw [e1] at h2
    rw [e2] at h3
    simp [h2, h3]
    omega

/-- The boolean column-subset test decides set inclusion. -/
theorem subcols_iff (a b : List String) : subcols a b = true ↔ ∀ c ∈ a, c ∈ b := by
  simp [subcols]

/-- C4: classification precedence — a table whose column set contains
{device_id, timestamp, temperature} passes through unchanged (checked
first); otherwise a superset of the five LegacyVendor columns gets the
Kaggle transformation; any other table gets the generic treatment with the
fixed renames. -/
theorem claim_C4_classification (g : Rng) (df : DataFrame) :
    ((∀ c ∈ canonicalCols, c ∈ df.cols) →
      transformToStandardFormat g df = some (.cells df.cols df.rows.enum, g)) ∧
    ((¬ ∀ c ∈ canonicalCols, c ∈ df.cols) → (∀ c ∈ kaggleCols, c ∈ df.cols) →
      transformToStandardFormat g df =
        (transformKaggleSt g df).map (fun t => (.kag t.1, t.2.2))) ∧
    ((¬ ∀ c ∈ canonicalCols, c ∈ df.cols) → (¬ ∀ c ∈ kaggleCols, c ∈ df.cols) →
      transformToStandardFormat g df =
        some (.cells (df.cols.map renameCol) df.rows.enum, g)) := by
  refine ⟨fun hc => ?_, fun hc hk => ?_, fun hc hk => ?_⟩
  · rw [transformToStandardFormat, if_pos ((subcols_iff _ _).mpr hc)]
  · rw [transformToStandardFormat,
      if_neg (fun hb => hc ((subcols_iff _ _).mp hb)),
      if_pos ((subcols_iff _ _).mpr hk)]
  · rw [transformToStandardFormat,
      if_neg (fun hb => hc ((subcols_iff _ _).mp hb)),
      if_neg (fun hb => hk ((subcols_iff _ _).mp hb))]
    rfl

/-- Witness for C4: the three spec examples classify as stated. -/
theorem claim_C4_classification_witness :
    transformToStandardFormat (npSeed 0)
        ⟨["device_id", "timestamp", "temperature", "extra"], []⟩
      = some (.cells ["device_id", "timestamp", "temperature", "extra"] [], npSeed 0) ∧
    transformToStandardFormat (npSeed 0) dfScenario
      = (transformKaggleSt (npSeed 0) dfScenario).map (fun t => (.kag t.1, t.2.2)) ∧
    transformToStandardFormat (npSeed 0) ⟨["a/b", "x"], []⟩
      = some (.cells (["a/b", "x"].map renameCol) [], npSeed 0) := by
  refine ⟨?_, ?_, ?_⟩
  · exact (claim_C4_classification (npSeed 0) _).1 (by decide)
  · exact (claim_C4_classification (npSeed 0) _).2.1 (by decide) (by decide)
  · exact (claim_C4_classification (npSeed 0) _).2.2 (by decide) (by decide)

/-- Counterexample for C9 as stated: a column named "a/b" contains a slash
but the generic transformation leaves it untouched — only the two fixed
columns are ever renamed. -/
theorem claim_C9_generic_rename_cex :
    (transformGenericFormat ⟨["a/b"], [[some "x"]]⟩).cols = ["a/b"] ∧
    '/' ∈ ("a/b").data ∧
    "a/b" ≠ "a_b" := by
  refine ⟨by decide, by decide, by decide⟩

/-- C9 (amended): the generic transformation renames exactly the columns
`room_id/id` and `out/in` (to `room_id_id` and `out_in`), leaves every
other column name unchanged (slash-bearing or not), and does not alter any
cell values. -/
theorem claim_C9_generic_rename (df : DataFrame) :
    (transformGenericFormat df).rows = df.rows ∧
    (transformGenericFormat df).cols = df.cols.map renameCol ∧
    renameCol "room_id/id" = "room_id_id" ∧
    renameCol "out/in" = "out_in" ∧
    (∀ c, c ≠ "room_id/id" → c ≠ "out/in" → renameCol c = c) := by
  refine ⟨rfl, rfl, rfl, rfl, fun c h1 h2 => ?_⟩
  simp [renameCol, h1, h2]

/-- Witness for C9 (amended) on a concrete table. -/
theorem claim_C9_generic_rename_witness :
    (transformGenericFormat
        ⟨["room_id/id", "out/in", "temp"], [[some "1", some "In", some "2"]]⟩).cols
      = ["room_id_id", "out_in", "temp"] ∧
    (transformGenericFormat
        ⟨["room_id/id", "out/in", "temp"], [[some "1", some "In", some "2"]]⟩).rows
      = [[some "1", some "In", some "2"]] := by
  obtain ⟨hr, hc, h1, h2, h3⟩ := claim_C9_generic_rename
    ⟨["room_id/id", "out/in", "temp"], [[some "1", some "In", some "2"]]⟩
  refine ⟨?_, hr⟩
  rw [hc]
  simp [h1, h2, h3 "temp" (by decide) (by decide)]

/-- Counterexample for C3 as stated: the source takes the FIRST eight
characters of the last underscore segment, not the last eight, so for
id `x_123456789` the code and the spec reading disagree; and for the
scenario id `__7` the code yields `IOT_TEMP_7`, which does not end in an
8-character suffix such as `00000007`. -/
theorem claim_C3_device_id_cex :
    deviceIdOf (some "x_123456789") = "IOT_TEMP_12345678" ∧
    deviceIdSpecLast8 (some "x_123456789") = "IOT_TEMP_23456789" ∧
    deviceIdOf (some "x_123456789") ≠ deviceIdSpecLast8 (some "x_123456789") ∧
    deviceIdOf (some "__7") = "IOT_TEMP_7" ∧
    "IOT_TEMP_7" ≠ "IOT_TEMP_00000007" := by
  refine ⟨by decide, by decide, by decide, by decide, by decide⟩

/-- C3 (amended): for a non-missing id the device id is the fixed prefix
followed by the uppercased first-at-most-8 characters of the last
"_"-separated segment; a missing id yields the fixed sentinel; the spec's
scenario row (id `__7`, Room Admin, 28-07-2018 12:00, 29.5, In) survives
the transformation with device_id `IOT_TEMP_7` and location `Office_in`. -/
theorem claim_C3_device_id (s : String) (g : Rng) :
    deviceIdOf (some s)
      = "IOT_TEMP_" ++ upperStr (takeStr 8 ((splitOnCh '_' s).getLastD "")) ∧
    deviceIdOf none = "IOT_TEMP_UNKNOWN" ∧
    (transformKaggleSt g dfScenario).map
        (fun t => t.1.map (fun p => (p.1, p.2.device_id, p.2.location)))
      = some [(0, "IOT_TEMP_7", "Office_in")] := by
  refine ⟨rfl, rfl, ?_⟩
  rw [transformKaggleSt_eq_specOrder]
  decide

/-- A prefix of `l` is a prefix of `l ++ t`. -/
theorem isPrefixOf_append_of_isPrefixOf (p : List Char) :
    ∀ (l t : List Char), p.isPrefixOf l = true → p.isPrefixOf (l ++ t) = true := by
  induction p with
  | nil => intro l t _; simp [List.isPrefixOf]
  | cons a as ih =>
    intro l t h
    cases l with
    | nil => simp [List.isPrefixOf] at h
    | cons b bs =>
      simp only [List.cons_append, List.isPrefixOf, Bool.and_eq_true] at h ⊢
      exact ⟨h.1, ih bs t h.2⟩

/-- The empty pattern occurs in every list. -/
theorem subListAt_nil (l : List Char) : subListAt [] l = true := by
  cases l <;> simp [subListAt, List.isPrefixOf]

/-- A substring occurrence survives appending on the right. -/
theorem subListAt_append (p : List Char) :
    ∀ (l t : List Char), subListAt p l = true → subListAt p (l ++ t) = true := by
  intro l
  induction l with
  | nil =>
    intro t h
    simp only [subListAt, List.isEmpty_iff] at h
    subst h
    simpa using subListAt_nil t
  | cons c rest ih =>
    intro t h
    simp only [subListAt, Bool.or_eq_true] at h ⊢
    rcases h with h | h
    · exact Or.inl (isPrefixOf_append_of_isPrefixOf p (c :: rest) t h)
    · exact Or.inr (ih t h)

/-- String concatenation acts on the underlying character lists. -/
theorem strData_append (a b : String) : (a ++ b).data = a.data ++ b.data := rfl

/-- A case-insensitive hit in `s` persists in `s ++ t`. -/
theorem containsCI_append_left (s t pat : String)
    (h : containsCI s pat = true) : containsCI (s ++ t) pat = true := by
  unfold containsCI lowerStr at h ⊢
  rw [strData_append, List.map_append]
  exact subListAt_append _ _ _ h

/-- C10 (amended): the indoor/outdoor choice of the humidity base (45 vs
65) and the signal base (−55 vs −45) is a case-insensitive substring test
for "in" on the entire location string; consequently every row whose room
identifier still contains "in" after the `Room `-strip and
`Admin → Office` rewriting (e.g. a room named "Dining") gets the indoor
bases even when the out/in qualifier is "Out". -/
theorem claim_C10_indoor_substring_test (room outin : String)
    (h : containsCI (processRoom room) "in" = true) :
    containsCI (mkLocation room outin) "in" = true ∧
    baseHumidityOf (mkLocation room outin) = 45 ∧
    baseSignalOf (mkLocation room outin) = -55 := by
  have hc : containsCI (mkLocation room outin) "in" = true := by
    unfold mkLocation
    rw [String.append_assoc]
    exact containsCI_append_left _ _ _ h
  exact ⟨hc, by rw [baseHumidityOf, if_pos hc], by rw [baseSignalOf, if_pos hc]⟩

/-- Witness for C10 on the claim's own example: room "Dining" with
qualifier "Out" is treated as indoor. -/
theorem claim_C10_indoor_substring_test_witness :
    containsCI (processRoom "Dining") "in" = true ∧
    baseHumidityOf (mkLocation "Dining" "Out") = 45 ∧
    baseSignalOf (mkLocation "Dining" "Out") = -55 :=
  ⟨by decide,
   (claim_C10_indoor_substring_test "Dining" "Out" (by decide)).2.1,
   (claim_C10_indoor_substring_test "Dining" "Out" (by decide)).2.2⟩

/-- Counterexample for C10 as stated: the room "Admin" contains "in", yet
its row gets the OUTDOOR bases when the qualifier is "Out", because the
location string rewrites "Admin" to "Office" before the substring test. -/
theorem claim_C10_indoor_substring_test_cex :
    containsCI "Admin" "in" = true ∧
    mkLocation "Admin" "Out" = "Office_out" ∧
    containsCI (mkLocation "Admin" "Out") "in" = false ∧
    baseHumidityOf (mkLocation "Admin" "Out") = 65 ∧
    baseSignalOf (mkLocation "Admin" "Out") = -45 := by
  refine ⟨by decide, by decide, by decide, ?_, ?_⟩
  · rw [baseHumidityOf, if_neg ?_]
    rw [show containsCI (mkLocation "Admin" "Out") "in" = false from by decide]
    simp
  · rw [baseSignalOf, if_neg ?_]
    rw [show containsCI (mkLocation "Admin" "Out") "in" = false from by decide]
    simp

/-- Counterexample for C7 as stated: the source's `except`-path fallback
re-queries `file_path.stat()`, so for a file whose byte stream cannot be
read AND whose stat also fails (it vanished after the glob), the hasher
itself raises — and since the hash is computed outside the per-file `try`,
the raise aborts the scan and the log resource too. -/
theorem claim_C7_hash_fallback_cex :
    calculateFileHash shaW fileStatFail = .error () ∧
    loadTemperatureFiles shaW 0 [fileStatFail] getProcessedFiles = .error () ∧
    logFileProcessing shaW 0 [fileStatFail] = .error () := by
  refine ⟨rfl, rfl, rfl⟩

/-- C7 (amended): on an I/O read failure the hasher returns the degraded
fallback `error_<name>_<size>` without propagating the failure — provided
the `stat()` call its fallback performs still succeeds — and the fallback
is deterministic for the same (name, size) pair: two failing files with
equal name and stat size hash identically, whatever their other
attributes.  When the fallback's `stat()` also fails, the exception
propagates (see the counterexample). -/
theorem claim_C7_hash_fallback (sha : List Nat → String) (f1 f2 : PFile)
    (st1 st2 : StatInfo)
    (h1 : f1.readBytes = .error ()) (h2 : f2.readBytes = .error ())
    (hst1 : f1.stat = .ok st1) (hst2 : f2.stat = .ok st2)
    (hn : f1.name = f2.name) (hsz : st1.size = st2.size) :
    calculateFileHash sha f1
      = .ok ("error_" ++ f1.name ++ "_" ++ decRepr st1.size) ∧
    calculateFileHash sha f1 = calculateFileHash sha f2 := by
  have e1 : calculateFileHash sha f1
      = .ok ("error_" ++ f1.name ++ "_" ++ decRepr st1.size) := by
    unfold calculateFileHash
    rw [h1, hst1]
  have e2 : calculateFileHash sha f2
      = .ok ("error_" ++ f2.name ++ "_" ++ decRepr st2.size) := by
    unfold calculateFileHash
    rw [h2, hst2]
  refine ⟨e1, ?_⟩
  rw [e1, e2, hn, hsz]

/-- Witness for C7 (amended): the concrete read-failed file with a live
stat hashes to its fallback, and a second failing file with the same name
and stat size hashes identically. -/
theorem claim_C7_hash_fallback_witness :
    calculateFileHash shaW fileIOFail = .ok "error_broken.csv_55" ∧
    calculateFileHash shaW fileIOFail
      = calculateFileHash shaW
          ⟨"broken.csv", "elsewhere", .ok ⟨55, 0⟩, .error (), none⟩ := by
  obtain ⟨a, b⟩ := claim_C7_hash_fallback shaW fileIOFail
    ⟨"broken.csv", "elsewhere", .ok ⟨55, 0⟩, .error (), none⟩
    ⟨55, 100⟩ ⟨55, 0⟩ rfl rfl rfl rfl rfl rfl
  exact ⟨by rw [a]; decide, b⟩

/-- Counterexample for C8 as stated: a decode-failed file and a
registry-skipped file both contribute zero rows, yet their log entries
carry status "processed", not "failed"/"skipped" — the log resource
hard-codes the status. -/
theorem claim_C8_log_status_cex :
    fileUnreadable.parsed = none ∧
    loadTemperatureFiles shaW 0 [fileUnreadable] getProcessedFiles = .ok [] ∧
    (logFileProcessing shaW 0 [fileUnreadable]).map
      (fun es => es.map (fun e => e.status)) = .ok ["processed"] ∧
    calculateFileHash shaW fileW = .ok "H209563" ∧
    loadTemperatureFiles shaW 0 [fileW] ["H209563"] = .ok [] ∧
    (logFileProcessing shaW 0 [fileW]).map
      (fun es => es.map (fun e => e.status)) = .ok ["processed"] := by
  refine ⟨rfl, by decide, by decide, by decide, by decide, by decide⟩

/-- A completed log pass yields one entry per scanned file, each with the
hard-coded status. -/
theorem logFileProcessing_spec (sha : List Nat → String) (now : Nat) :
    ∀ (files : List PFile) (entries : List LogEntry),
      logFileProcessing sha now files = .ok entries →
      entries.length = files.length ∧ ∀ e ∈ entries, e.status = "processed" := by
  intro files
  induction files with
  | nil =>
    intro entries h
    obtain rfl := Except.ok.inj h
    exact ⟨rfl, by simp⟩
  | cons f fs ih =>
    intro entries h
    unfold logFileProcessing at h
    split at h
    · exact absurd h (by simp)
    · split at h
      · exact absurd h (by simp)
      · split at h
        · exact absurd h (by simp)
        · next rest hrest =>
          obtain rfl := Except.ok.inj h
          obtain ⟨hlen, hst⟩ := ih rest hrest
          refine ⟨by simpa using hlen, ?_⟩
          intro e he
          rcases List.mem_cons.mp he with rfl | he'
          · rfl
          · exact hst e he'

/-- C8 (amended): every scanned file produces exactly one
FileProcessingLogEntry per run (whenever the log resource completes),
regardless of whether rows were emitted; but the status does not reflect
the outcome — it is unconditionally "processed", also for decode-failed
and registry-skipped files. -/
theorem claim_C8_log_entries (sha : List Nat → String) (now : Nat)
    (files : List PFile) (entries : List LogEntry)
    (h : logFileProcessing sha now files = .ok entries) :
    entries.length = files.length ∧
    (entries.map (fun e => e.status)).all (fun s => s == "processed") = true := by
  obtain ⟨hlen, hst⟩ := logFileProcessing_spec sha now files entries h
  refine ⟨hlen, ?_⟩
  rw [List.all_eq_true]
  intro s hs
  obtain ⟨e, he, rfl⟩ := List.mem_map.mp hs
  simpa using hst e he

/-- Witness for C8 (amended): a run over one processed and one
decode-failed file logs exactly two entries, both "processed". -/
theorem claim_C8_log_entries_witness :
    (logFileProcessing shaW 0 [fileW, fileUnreadable]).map
      (fun es => (es.length, es.map (fun e => e.status)))
      = .ok (2, ["processed", "processed"]) := by
  cases h : logFileProcessing shaW 0 [fileW, fileUnreadable] with
  | error e => cases e; exact absurd h (by decide)
  | ok entries =>
    obtain ⟨hlen, hall⟩ :=
      claim_C8_log_entries shaW 0 [fileW, fileUnreadable] entries h
    obtain ⟨e1, e2, rfl⟩ := List.length_eq_two.mp hlen
    simp at hall
    simp [Except.map, hall.1, hall.2]

/-- C1 (code bug): `_get_processed_files` is a stub returning the empty
set and no code path ever commits a hash, so running the pipeline twice
over the same landing zone evaluates both times to the same nonempty
record list — the second run re-emits every row instead of zero.  The
skip-on-registry-hit mechanism itself works (last conjunct: placing the
file's hash in the registry yields zero rows), but the stub never
populates it. -/
theorem claim_C1_idempotency_codebug :
    getProcessedFiles = [] ∧
    calculateFileHash shaW fileW = .ok "H209563" ∧
    (loadTemperatureFiles shaW 0 [fileW] getProcessedFiles).map
      (fun out => out.map (fun r => r.file_record_id)) = .ok ["H209563_0"] ∧
    loadTemperatureFiles shaW 0 [fileW] getProcessedFiles ≠ .ok [] ∧
    loadTemperatureFiles shaW 0 [fileW] ["H209563"] = .ok [] := by
  refine ⟨rfl, by decide, by decide, by decide, by decide⟩

/-- The fuelled digit renderer computes the reversed decimal digits. -/
theorem decReprAux_eq : ∀ (fuel n : Nat), n ≤ fuel →
    decReprAux fuel n = ((Nat.digits 10 n).map digitCharOf).reverse := by
  intro fuel
  induction fuel with
  | zero =>
    intro n hn
    interval_cases n
    simp [decReprAux]
  | succ fuel ih =>
    intro n hn
    cases n with
    | zero => simp [decReprAux]
    | succ m =>
      rw [decReprAux, Nat.digits_def' (by norm_num : (1:ℕ) < 10) (Nat.succ_pos m)]
      rw [ih ((m + 1) / 10) (by
        have := Nat.div_lt_self (Nat.succ_pos m) (by norm_num : (1:ℕ) < 10)
        omega)]
      simp
      omega

/-- Digit characters are injective on digits. -/
theorem digitCharOf_inj10 : ∀ a < 10, ∀ b < 10, digitCharOf a = digitCharOf b → a = b := by
  decide

/-- No digit character is an underscore. -/
theorem digitCharOf_ne_underscore : ∀ a < 10, digitCharOf a ≠ '_' := by
  decide

/-- Mapping `digitCharOf` over digit lists is injective. -/
theorem map_digitCharOf_inj : ∀ (l1 l2 : List Nat), (∀ x ∈ l1, x < 10) →
    (∀ x ∈ l2, x < 10) → l1.map digitCharOf = l2.map digitCharOf → l1 = l2 := by
  intro l1
  induction l1 with
  | nil =>
    intro l2 _ _ h
    cases l2 with
    | nil => rfl
    | cons b t2 => simp at h
  | cons a t ih =>
    intro l2 h1 h2 h
    cases l2 with
    | nil => simp at h
    | cons b t2 =>
      simp only [List.map_cons, List.cons.injEq] at h
      have hab := digitCharOf_inj10 a (h1 a (by simp)) b (h2 b (by simp)) h.1
      subst hab
      rw [ih t2 (fun x hx => h1 x (by simp [hx])) (fun x hx => h2 x (by simp [hx])) h.2]

/-- Decimal rendering is injective (model of: distinct row indices yield
distinct decimal strings). -/
theorem decRepr_inj : ∀ (a b : Nat), decRepr a = decRepr b → a = b := by
  have key : ∀ n : Nat, n ≠ 0 →
      (decRepr n).data = ((Nat.digits 10 n).map digitCharOf).reverse := by
    intro n hn
    rw [decRepr, if_neg hn]
    exact decReprAux_eq n n le_rfl
  have digs : ∀ n : Nat, ∀ x ∈ Nat.digits 10 n, x < 10 := by
    intro n x hx
    exact Nat.digits_lt_base (by norm_num) hx
  intro a b h
  by_cases ha : a = 0 <;> by_cases hb : b = 0
  · omega
  · exfalso
    have hd : (decRepr a).data = (decRepr b).data := by rw [h]
    rw [ha, key b hb] at hd
    have : ((Nat.digits 10 b).map digitCharOf) = ['0'] := by
      have := congrArg List.reverse hd
      simpa [decRepr] using this.symm
    have hdig : Nat.digits 10 b = [0] :=
      map_digitCharOf_inj _ [0] (digs b) (by simp) (by simpa [digitCharOf] using this)
    have := Nat.ofDigits_digits 10 b
    rw [hdig] at this
    simp [Nat.ofDigits] at this
    omega
  · exfalso
    have hd : (decRepr a).data = (decRepr b).data := by rw [h]
    rw [hb, key a ha] at hd
    have : ((Nat.digits 10 a).map digitCharOf) = ['0'] := by
      have := congrArg List.reverse hd
      simpa [decRepr] using this
    have hdig : Nat.digits 10 a = [0] :=
      map_digitCharOf_inj _ [0] (digs a) (by simp) (by simpa [digitCharOf] using this)
    have := Nat.ofDigits_digits 10 a
    rw [hdig] at this
    simp [Nat.ofDigits] at this
    omega
  · have hd : (decRepr a).data = (decRepr b).data := by rw [h]
    rw [key a ha, key b hb] at hd
    have hrev := congrArg List.reverse hd
    simp only [List.reverse_reverse] at hrev
    have hdig := map_digitCharOf_inj _ _ (digs a) (digs b) hrev
    have h1 := Nat.ofDigits_digits 10 a
    have h2 := Nat.ofDigits_digits 10 b
    rw [hdig] at h1
    omega

/-- The decimal rendering never contains an underscore. -/
theorem underscore_not_mem_decRepr (n : Nat) : '_' ∉ (decRepr n).data := by
  by_cases hn : n = 0
  · subst hn
    decide
  · rw [decRepr, if_neg hn, decReprAux_eq n n le_rfl]
    intro hmem
    rw [List.mem_reverse, List.mem_map] at hmem
    obtain ⟨d, hd, hdc⟩ := hmem
    exact digitCharOf_ne_underscore d (Nat.digits_lt_base (by norm_num) hd) hdc

/-- The record id `h ++ "_" ++ digits` decomposes at the character level. -/
theorem encId_data (h : String) (i : Nat) :
    (h ++ "_" ++ decRepr i).data = h.data ++ '_' :: (decRepr i).data := by
  rw [strData_append, strData_append, List.append_assoc]
  rfl

/-- Two underscore-separated encodings with hash parts of different
lengths cannot coincide when the tail holds no underscore. -/
theorem no_cross_underscore (l1 l2 r1 r2 : List Char)
    (hlt : l1.length < l2.length)
    (heq : l1 ++ '_' :: r1 = l2 ++ '_' :: r2) (hr1 : '_' ∉ r1) : False := by
  have heq' : (l1 ++ ['_']) ++ r1 = l2 ++ '_' :: r2 := by
    rw [List.append_assoc]
    exact heq
  have hdrop := congrArg (List.drop (l1.length + 1)) heq'
  rw [List.drop_left' (show (l1 ++ ['_']).length = l1.length + 1 by simp)] at hdrop
  rw [List.drop_append_of_le_length (by omega)] at hdrop
  apply hr1
  rw [hdrop]
  exact List.mem_append.mpr (Or.inr (List.mem_cons_self _ _))

/-- The id encoding `(h, i) ↦ h ++ "_" ++ decimal i` is injective. -/
theorem encId_inj (h1 h2 : String) (i1 i2 : Nat)
    (heq : h1 ++ "_" ++ decRepr i1 = h2 ++ "_" ++ decRepr i2) :
    h1 = h2 ∧ i1 = i2 := by
  have hd : h1.data ++ '_' :: (decRepr i1).data
      = h2.data ++ '_' :: (decRepr i2).data := by
    rw [← encId_data, ← encId_data, heq]
  rcases Nat.lt_trichotomy h1.data.length h2.data.length with hlt | hle | hgt
  · exact absurd hd (fun hh =>
      no_cross_underscore _ _ _ _ hlt hh (underscore_not_mem_decRepr i1))
  · obtain ⟨hh, ht⟩ := List.append_inj hd hle
    have htl : (decRepr i1).data = (decRepr i2).data := by
      injection ht
    exact ⟨String.ext hh, decRepr_inj _ _ (String.ext htl)⟩
  · exact absurd hd.symm (fun hh =>
      no_cross_underscore _ _ _ _ hgt hh (underscore_not_mem_decRepr i2))

/-- The emitted ids of one file are exactly the transformed table's row
labels under the `hash ++ "_" ++ index` encoding. -/
theorem enrichRows_ids (h : String) (f : PFile) (sz now : Nat) (tr : TRows) :
    (enrichRows h f sz now tr).map (fun r => r.file_record_id)
      = tr.idxList.map (fun i => h ++ "_" ++ decRepr i) := by
  cases tr <;> simp [enrichRows, TRows.idxList, List.map_map, Function.comp_def]

/-- Every record emitted for one file carries that file's hash, and its id
and row number are the encodings of one row label. -/
theorem mem_enrichRows (h : String) (f : PFile) (sz now : Nat) (tr : TRows)
    (r : Record) (hr : r ∈ enrichRows h f sz now tr) :
    r.file_hash = h ∧
    ∃ i, r.file_record_id = h ++ "_" ++ decRepr i ∧ r.row_number = i + 1 := by
  cases tr <;>
    · simp only [enrichRows, List.mem_map] at hr
      obtain ⟨p, -, rfl⟩ := hr
      exact ⟨rfl, p.1, rfl, rfl⟩

/-- The row labels of any transformed table are pairwise distinct:
passthrough and generic tables carry `0..n-1`, and the Kaggle path filters
a table labelled `0..n-1`. -/
theorem transform_idx_nodup (g : Rng) (df : DataFrame) (tr : TRows) (g' : Rng)
    (h : transformToStandardFormat g df = some (tr, g')) : tr.idxList.Nodup := by
  unfold transformToStandardFormat at h
  by_cases h1 : subcols canonicalCols df.cols
  · rw [if_pos h1] at h
    simp only [Option.some.injEq, Prod.mk.injEq] at h
    obtain ⟨rfl, -⟩ := h
    simp [TRows.idxList, List.enum_map_fst, List.nodup_range]
  · rw [if_neg h1] at h
    by_cases h2 : subcols kaggleCols df.cols
    · rw [if_pos h2, transformKaggleSt_eq_specOrder] at h
      cases hT : kaggleTempCol df with
      | none =>
        rw [transformKaggleSpecOrder, kaggleAllRowsSpecOrder, hT] at h
        simp at h
      | some tempCol =>
        rw [transformKaggleSpecOrder, kaggleAllRowsSpecOrder, hT] at h
        simp only [Option.map_some', Option.some.injEq, Prod.mk.injEq] at h
        obtain ⟨rfl, -⟩ := h
        simp only [TRows.idxList]
        have hsub : List.Sublist
            ((List.filter (fun p => p.2.timestamp.isSome)
              (kaggleAssemble df tempCol (kaggleSpecHumNoise df.rows.length)
                (kaggleSpecBaseBat df.rows.length) (kaggleSpecBatNoise df.rows.length)
                (kaggleSpecSigNoise df.rows.length) (kaggleSpecDevType df.rows.length)
                (kaggleSpecFirmware df.rows.length))).map Prod.fst)
            ((kaggleAssemble df tempCol (kaggleSpecHumNoise df.rows.length)
                (kaggleSpecBaseBat df.rows.length) (kaggleSpecBatNoise df.rows.length)
                (kaggleSpecSigNoise df.rows.length) (kaggleSpecDevType df.rows.length)
                (kaggleSpecFirmware df.rows.length)).map Prod.fst) :=
          (List.filter_sublist _).map _
        have hall : (kaggleAssemble df tempCol (kaggleSpecHumNoise df.rows.length)
            (kaggleSpecBaseBat df.rows.length) (kaggleSpecBatNoise df.rows.length)
            (kaggleSpecSigNoise df.rows.length) (kaggleSpecDevType df.rows.length)
            (kaggleSpecFirmware df.rows.length)).map Prod.fst
            = List.range df.rows.length := by
          simp [kaggleAssemble, List.map_map, Function.comp_def]
        rw [hall] at hsub
        exact hsub.nodup (List.nodup_range _)
    · rw [if_neg h2] at h
      simp only [Option.some.injEq, Prod.mk.injEq] at h
      obtain ⟨rfl, -⟩ := h
      simp [TRows.idxList, List.enum_map_fst, List.nodup_range]

/-- Per-file emission on the success path: the hash computation succeeded
with some value, every record carries that hash with the id/row-number
encodings, and the ids of one file are pairwise distinct. -/
theorem processFile_spec (sha : List Nat → String) (now : Nat)
    (processed : List String) (g : Rng) (f : PFile)
    (out : List Record × Rng)
    (hp : processFile sha now processed g f = .ok out) :
    ∃ hs, calculateFileHash sha f = .ok hs ∧
      (∀ r ∈ out.1, r.file_hash = hs ∧
        ∃ i, r.file_record_id = hs ++ "_" ++ decRepr i ∧
          r.row_number = i + 1) ∧
      (out.1.map (fun r => r.file_record_id)).Nodup := by
  unfold processFile at hp
  split at hp
  · exact absurd hp (by simp)
  · next hs hcalc =>
    refine ⟨hs, hcalc, ?_⟩
    split at hp
    · obtain rfl := Except.ok.inj hp
      exact ⟨by simp, by simp⟩
    · split at hp
      · obtain rfl := Except.ok.inj hp
        exact ⟨by simp, by simp⟩
      · next df _ =>
        split at hp
        · obtain rfl := Except.ok.inj hp
          exact ⟨by simp, by simp⟩
        · split at hp
          · obtain rfl := Except.ok.inj hp
            exact ⟨by simp, by simp⟩
          · next tr g' ht =>
            split at hp
            · obtain rfl := Except.ok.inj hp
              exact ⟨by simp, by simp⟩
            · next st _ =>
              obtain rfl := Except.ok.inj hp
              constructor
              · intro r hr
                exact mem_enrichRows hs f st.size now tr r hr
              · rw [enrichRows_ids]
                refine List.Nodup.map ?_ (transform_idx_nodup g df tr g' ht)
                intro a b hab
                exact (encId_inj _ _ _ _ hab).2

/-- Along a completed load loop, every accumulated record's id and row
number are the encodings of some index under its own file hash. -/
theorem loadAux_formula (sha : List Nat → String) (now : Nat)
    (processed : List String) :
    ∀ (files : List PFile) (acc res : List Record × Rng),
      loadFilesAux sha now processed files acc = .ok res →
      (∀ r ∈ acc.1, ∃ i, r.file_record_id = r.file_hash ++ "_" ++ decRepr i ∧
        r.row_number = i + 1) →
      ∀ r ∈ res.1,
        ∃ i, r.file_record_id = r.file_hash ++ "_" ++ decRepr i ∧
          r.row_number = i + 1 := by
  intro files
  induction files with
  | nil =>
    intro acc res h hacc
    obtain rfl := Except.ok.inj h
    exact hacc
  | cons f fs ih =>
    intro acc res h hacc
    unfold loadFilesAux at h
    split at h
    · exact absurd h (by simp)
    · next s hstep =>
      refine ih _ res h ?_
      intro r hr
      rcases List.mem_append.mp hr with h' | h'
      · exact hacc r h'
      · obtain ⟨hs, -, hmem, -⟩ :=
          processFile_spec sha now processed acc.2 f s hstep
        obtain ⟨hh, i, hid, hrow⟩ := hmem r h'
        exact ⟨i, by rw [hh]; exact hid, hrow⟩

/-- Along a completed load loop, the accumulated ids stay pairwise distinct
as long as the scanned files' hash results are pairwise distinct and
disjoint from the hashes already in the accumulator. -/
theorem loadAux_nodup (sha : List Nat → String) (now : Nat)
    (processed : List String) :
    ∀ (files : List PFile) (acc res : List Record × Rng),
      loadFilesAux sha now processed files acc = .ok res →
      (∀ r ∈ acc.1, ∃ i, r.file_record_id = r.file_hash ++ "_" ++ decRepr i ∧
        r.row_number = i + 1) →
      (files.map (fun f => calculateFileHash sha f)).Nodup →
      (acc.1.map (fun r => r.file_record_id)).Nodup →
      (∀ f ∈ files, ∀ r ∈ acc.1, calculateFileHash sha f ≠ .ok r.file_hash) →
      (res.1.map (fun r => r.file_record_id)).Nodup := by
  intro files
  induction files with
  | nil =>
    intro acc res h _ _ hacc _
    obtain rfl := Except.ok.inj h
    exact hacc
  | cons f fs ih =>
    intro acc res h hP hnd hacc hdis
    unfold loadFilesAux at h
    split at h
    · exact absurd h (by simp)
    · next s hstep =>
      obtain ⟨hs, hcalc, hmem, hnods⟩ :=
        processFile_spec sha now processed acc.2 f s hstep
      refine ih _ res h ?_ (List.nodup_cons.mp (by simpa using hnd)).2 ?_ ?_
      · intro r hr
        rcases List.mem_append.mp hr with h' | h'
        · exact hP r h'
        · obtain ⟨hh, i, hid, hrow⟩ := hmem r h'
          exact ⟨i, by rw [hh]; exact hid, hrow⟩
      · show ((acc.1 ++ s.1).map (fun r => r.file_record_id)).Nodup
        rw [List.map_append]
        refine List.Nodup.append hacc hnods ?_
        intro a ha hb
        obtain ⟨r1, hr1, rfl⟩ := List.mem_map.mp ha
        obtain ⟨r2, hr2, hid2⟩ := List.mem_map.mp hb
        obtain ⟨i1, hid1, -⟩ := hP r1 hr1
        obtain ⟨hh2, i2, hid2', -⟩ := hmem r2 hr2
        have hkey : r1.file_record_id = hs ++ "_" ++ decRepr i2 := by
          rw [← hid2', hid2]
        rw [hid1] at hkey
        have hfh := (encId_inj _ _ _ _ hkey).1
        refine hdis f (List.mem_cons_self f fs) r1 hr1 ?_
        rw [hfh]
        exact hcalc
      · intro f' hf' r hr
        rcases List.mem_append.mp hr with h' | h'
        · exact hdis f' (List.mem_cons_of_mem f hf') r h'
        · obtain ⟨hh, -⟩ := hmem r h'
          rw [hh]
          intro hcontra
          have hmemf : calculateFileHash sha f
              ∈ fs.map (fun x => calculateFileHash sha x) := by
            rw [hcalc, ← hcontra]
            exact List.mem_map_of_mem _ hf'
          exact (List.nodup_cons.mp (by simpa using hnd)).1 hmemf

/-- C6 (amended): whenever a run completes, each emitted record's
file_record_id is its file's hash followed by "_" and the decimal row
label, with row_number = label + 1 (the labels are the pre-drop zero-based
positions); within one file the ids are the labels under this encoding and
are pairwise distinct; across a whole run the ids are pairwise distinct
PROVIDED the scanned files' content-hash results are pairwise distinct —
two files with identical content defeat the uniqueness under the stub
registry. -/
theorem claim_C6_record_ids (sha : List Nat → String) (now : Nat)
    (files : List PFile) (processed : List String) (out : List Record)
    (hok : loadTemperatureFiles sha now files processed = .ok out) :
    (∀ (h : String) (f : PFile) (sz now' : Nat) (tr : TRows),
      (enrichRows h f sz now' tr).map (fun r => r.file_record_id)
        = tr.idxList.map (fun i => h ++ "_" ++ decRepr i)) ∧
    (∀ r ∈ out, ∃ i, r.file_record_id = r.file_hash ++ "_" ++ decRepr i ∧
      r.row_number = i + 1) ∧
    ((files.map (fun f => calculateFileHash sha f)).Nodup →
      (out.map (fun r => r.file_record_id)).Nodup) := by
  unfold loadTemperatureFiles at hok
  cases haux : loadFilesAux sha now processed files ([], npSeed 0) with
  | error e =>
    rw [haux] at hok
    exact absurd hok (by simp [Except.map])
  | ok p =>
    rw [haux] at hok
    simp only [Except.map] at hok
    obtain rfl := Except.ok.inj hok
    refine ⟨fun h f sz now' tr => enrichRows_ids h f sz now' tr, ?_, ?_⟩
    · exact loadAux_formula sha now processed files ([], npSeed 0) p haux
        (by simp)
    · intro hnd
      exact loadAux_nodup sha now processed files ([], npSeed 0) p haux
        (by simp) hnd (by simp) (by simp)

/-- Witness for C6 (amended): two files with distinct contents get
pairwise-distinct ids; the canonical one-row file emits id hash_0 with
row_number 1. -/
theorem claim_C6_record_ids_witness :
    (((loadTemperatureFiles shaW 0 [fileW, fileUnreadable]
        getProcessedFiles).toOption.getD []).map
      (fun r => r.file_record_id)).Nodup ∧
    ((loadTemperatureFiles shaW 0 [fileW, fileUnreadable]
        getProcessedFiles).toOption.getD []).map
      (fun r => (r.file_record_id, r.row_number)) = [("H209563_0", 1)] := by
  cases h : loadTemperatureFiles shaW 0 [fileW, fileUnreadable]
      getProcessedFiles with
  | error e => cases e; exact absurd h (by decide)
  | ok out =>
    have hthm := claim_C6_record_ids shaW 0 [fileW, fileUnreadable]
      getProcessedFiles out h
    have hout : (loadTemperatureFiles shaW 0 [fileW, fileUnreadable]
        getProcessedFiles).map
        (fun o => o.map (fun r => (r.file_record_id, r.row_number)))
        = .ok [("H209563_0", 1)] := by decide
    rw [h] at hout
    simp only [Except.map] at hout
    exact ⟨by simpa [Except.toOption] using hthm.2.2 (by decide),
      by simpa [Except.toOption] using Except.ok.inj hout⟩

/-- Counterexample for C6 as stated: two landing files with identical
bytes and identical parsed content share a hash, the stub registry skips
neither, and the run emits two records with the SAME file_record_id —
global uniqueness fails. -/
theorem claim_C6_record_ids_cex :
    (loadTemperatureFiles shaW 0 [fileW, fileW2] getProcessedFiles).map
      (fun out => out.map (fun r => r.file_record_id))
      = .ok ["H209563_0", "H209563_0"] ∧
    ¬ (((loadTemperatureFiles shaW 0 [fileW, fileW2]
        getProcessedFiles).toOption.getD []).map
      (fun r => r.file_record_id)).Nodup := by
  refine ⟨by decide, by decide⟩
